import Mathlib

/-!
Verification of the DealPrice-Analyser core (src/agents/frontier_agent.py and
src/agents/scanner_agent.py) against its specification.

Shallow embedding conventions:
- Python floats are modelled as rationals; all prices and parsed numbers in the
  claims are exactly representable and compared exactly.
- Network-bound collaborators (the generative model, the JSON decoder applied to
  its reply) are oracles passed in as `Except`-valued parameters; a thrown
  exception is an `error` value.
- The data classes in src/agents/deals.py are not part of the provided sources;
  their shapes are modelled from the spec and from how the two agent files use
  them, and are marked `Modelled from the spec:` where behaviour (not just
  shape) had to be taken from the spec.
-/

namespace DealPriceAnalyser

/-- A curated deal as produced by the scanner pipeline: the three JSON fields
the scanner prompt demands (product_description, price, url).
Modelled from the spec: the Deal pydantic model lives in src/agents/deals.py,
which is not among the provided sources; the spec describes a CuratedDeal as a
rephrased description, a price and the originating url. -/
structure Deal where
  product_description : String
  price : ℚ
  url : String
  deriving DecidableEq

/-- The structured output of one curation pass: a list of deals.
Modelled from the spec: src/agents/deals.py is not among the provided sources;
the spec defines a DealSelection as an ordered sequence of at most 5
CuratedDeal entries (the length bound is enforced by `DealSelection.validate`
below). -/
structure DealSelection where
  deals : List Deal
  deriving DecidableEq

/-- A memory entry as consumed by ScannerAgent.fetch_deals, which reads
`opp.deal.url` from each element. Modelled from the spec: the Opportunity
class is in src/agents/deals.py, not among the provided sources. -/
structure Opportunity where
  deal : Deal
  deriving DecidableEq

/-- A scraped candidate deal. The scanner reads its `url` (identity key for
deduplication) and `scrape.describe()` (its rendered descriptive text, here a
field since the rendering lives in src/agents/deals.py, which is not among the
provided sources). -/
structure ScrapedDeal where
  describe : String
  url : String
  deriving DecidableEq

/-! ## FrontierAgent.get_price

Source (src/agents/frontier_agent.py, lines 80-86):
```
text = text.replace("$", "").replace(",", "")
match = re.search(r"[-+]?\d*\.\d+|\d+", text)
return float(match.group()) if match else 0.0
```
The two `replace` calls delete every dollar sign and comma; `re.search` finds
the leftmost match, trying the alternatives in order at each position. The
regex is embedded below with exact backtracking semantics: since a shorter
greedy digit run is always followed by another digit, never by a dot,
backtracking inside the first alternative can never produce a match that the
maximal-run reading misses. `\d` is modelled as an ASCII digit. -/

/-- Deletion of every dollar sign and comma, as performed by
`text.replace("$", "").replace(",", "")`. -/
def stripCurrency (s : List Char) : List Char :=
  s.filter (fun c => c ≠ '$' && c ≠ ',')

/-- Maximal digit run at the head of the list, returning the run and the
remaining suffix (the greedy reading of a leading `\d*` or `\d+`). -/
def digitRun : List Char → List Char × List Char
  | [] => ([], [])
  | c :: cs =>
    if c.isDigit then
      let p := digitRun cs
      (c :: p.1, p.2)
    else ([], c :: cs)

/-- Numeric value of a digit string (most significant digit first). -/
def digitsVal (ds : List Char) : ℕ :=
  ds.foldl (fun a c => 10 * a + (c.toNat - 48)) 0

/-- The text of a matched numeric token, in a structured form: a sign flag,
the integer-part digits as a natural number, and the fraction-part digits as a
natural number together with their count (an integer token has an empty
fraction part). `val` is the number that `float` conversion of the matched
text denotes. -/
structure NumToken where
  neg : Bool
  intPart : ℕ
  fracNum : ℕ
  fracLen : ℕ
  deriving DecidableEq

/-- Value denoted by a matched token, as `float` would convert its text. -/
def NumToken.val (t : NumToken) : ℚ :=
  (if t.neg then -1 else 1) * ((t.intPart : ℚ) + (t.fracNum : ℚ) / (10 : ℚ) ^ t.fracLen)

/-- Match of the unsigned decimal pattern `\d*\.\d+` anchored at the head of
the list: a (possibly empty) digit run, a dot, then a nonempty digit run.
Returns the integer-part and fraction-part digits of the match. -/
def matchUnsignedDec (s : List Char) : Option (List Char × List Char) :=
  let p := digitRun s
  match p.2 with
  | '.' :: rest =>
    let q := digitRun rest
    if q.1.isEmpty then none else some (p.1, q.1)
  | _ => none

/-- Builds the token for a matched decimal core from its integer-part and
fraction-part digit runs. -/
def decToken (neg : Bool) (p : List Char × List Char) : NumToken :=
  ⟨neg, digitsVal p.1, digitsVal p.2, p.2.length⟩

/-- Match of the first regex alternative `[-+]?\d*\.\d+` anchored at the head
of the list, returning the matched token. A leading sign is consumed when
present; if the decimal core fails after a sign, the attempt without consuming
the sign also fails (the sign character is neither a digit nor a dot), so no
extra backtracking case is needed. -/
def matchDecAt : List Char → Option NumToken
  | [] => none
  | c :: cs =>
    if c = '-' then (matchUnsignedDec cs).map (decToken true)
    else if c = '+' then (matchUnsignedDec cs).map (decToken false)
    else (matchUnsignedDec (c :: cs)).map (decToken false)

/-- Match of the second regex alternative `\d+` anchored at the head of the
list, returning the (greedy) digit run as an unsigned integer token. -/
def matchIntAt : List Char → Option NumToken
  | [] => none
  | c :: cs =>
    if c.isDigit then some ⟨false, digitsVal (digitRun (c :: cs)).1, 0, 0⟩ else none

/-- The scan performed by `re.search`: positions are tried left to right, and
at each position the first alternative is preferred over the second. -/
def searchNum : List Char → Option NumToken
  | [] => none
  | c :: cs =>
    match matchDecAt (c :: cs) with
    | some t => some t
    | none =>
      match matchIntAt (c :: cs) with
      | some t => some t
      | none => searchNum cs

/-- FrontierAgent.get_price: strip currency symbols and thousands separators,
then return the value of the first numeric token found, or 0.0 when there is
none. -/
def get_price (text : String) : ℚ :=
  match searchNum (stripCurrency text.data) with
  | some t => t.val
  | none => 0

/-! Specification-side formulation of the extractor, used to state the
refinement theorems: the token pattern anchored at one position, and the
leftmost position at which it matches. -/

/-- The token pattern anchored at the head of the list: the signed or
unsigned decimal alternative first, then the (unsigned) integer alternative. -/
def tokenAt (s : List Char) : Option NumToken :=
  match matchDecAt s with
  | some t => some t
  | none => matchIntAt s

/-- All suffixes of a list, in positional order, the empty suffix last. -/
def suffixes : List Char → List (List Char)
  | [] => [[]]
  | c :: cs => (c :: cs) :: suffixes cs

/-- Specification-side extractor: locate the first (leftmost) position whose
suffix starts a token, and return that token. -/
def firstToken (s : List Char) : Option NumToken :=
  (List.find? (fun t => (tokenAt t).isSome) (suffixes s)).bind tokenAt

/-! ## FrontierAgent.price and FrontierAgent.find_similars -/

/-- Python `dict.get(key, default)` on a metadata map, modelled as an
association list with unique keys. -/
def dictGet (m : List (String × ℚ)) (k : String) (d : ℚ) : ℚ :=
  match m.lookup k with
  | some v => v
  | none => d

/-- Neighbor price extraction in FrontierAgent.find_similars (line 74):
`m.get("price", m.get("selling_price", 0.0))`. -/
def neighborPrice (m : List (String × ℚ)) : ℚ :=
  dictGet m "price" (dictGet m "selling_price" 0)

/-- FrontierAgent.find_similars, given the vector-store query result (parallel
lists of documents and metadata maps, an external collaborator): it returns
the documents unchanged and extracts each neighbor price from its metadata. -/
def find_similars (documents : List String) (metadatas : List (List (String × ℚ))) :
    List String × List ℚ :=
  (documents, metadatas.map neighborPrice)

/-- Whitespace characters removed by Python `str.strip()` (the ASCII ones;
the replies being stripped are model-generated numeric text). -/
def isPyWhitespace (c : Char) : Bool :=
  c = ' ' || c = '\t' || c = '\n' || c = '\r' || c = '\x0b' || c = '\x0c'

/-- Python `str.strip()` on the model reply: remove leading and trailing
whitespace. -/
def pyStrip (s : String) : String :=
  ⟨((s.data.dropWhile isPyWhitespace).reverse.dropWhile isPyWhitespace).reverse⟩

/-- FrontierAgent.price, as a function of the generative model reply (the
retrieval, context building and prompt assembly feed the model call but do not
touch the returned value, which is `self.get_price(response.text.strip())`). -/
def price (modelReply : String) : ℚ :=
  get_price (pyStrip modelReply)

/-! ## ScannerAgent

The backend behaviours inside the try-block of `scan` are oracles:
`callModel` is `self.model.generate_content` (an exception becomes
`error modelCallError`), and `parseJson` is `json.loads(response.text)`
followed by reading the raw deals list out of the parsed JSON (an exception
becomes `error jsonParseError`). Validation of the parsed data against the
DealSelection schema is `DealSelection.validate`. -/

/-- The failure modes collapsed by the try-block of ScannerAgent.scan. -/
inductive ScanError
  | modelCallError
  | jsonParseError
  | validationError
  deriving DecidableEq

/-- Schema validation performed by `DealSelection(**parsed)` in
ScannerAgent.scan. Modelled from the spec: the DealSelection pydantic model is
in src/agents/deals.py, which is not among the provided sources; the spec
defines a DealSelection as an ordered sequence of at most 5 CuratedDeal
entries, so a longer parsed list fails validation. -/
def DealSelection.validate (raw : List Deal) : Except ScanError DealSelection :=
  if raw.length ≤ 5 then .ok ⟨raw⟩ else .error .validationError

/-- Opening lines of the user prompt in ScannerAgent (USER_PROMPT_PREFIX,
abridged to its first sentence: the omitted lines are further instructions to
the model and carry no braces or code; no verified property depends on the
prompt text). -/
def promptIntro : String :=
  "Respond with the most promising 5 deals from this list, selecting those which have the most detailed, high quality product description and a clear price that is greater than 0.\n\nDeals:\n"

/-- Closing line of the user prompt in ScannerAgent (USER_PROMPT_SUFFIX). -/
def promptClosing : String :=
  "\n\nStrictly respond in JSON and include exactly 5 deals, no more."

/-- ScannerAgent.make_user_prompt: the prefix, each candidate description
joined by blank lines, and the suffix. -/
def make_user_prompt (scraped : List ScrapedDeal) : String :=
  promptIntro ++ String.intercalate "\n\n" (scraped.map (fun scrape => scrape.describe))
    ++ promptClosing

/-- ScannerAgent.fetch_deals: collect the urls already present in memory
entries, then keep exactly the scraped candidates whose url is not among
them, in their original order. The scraping itself
(`ScrapedDeal.fetch(selected_feeds=...)`) is the external RSS collaborator;
its result is the `scraped` parameter. -/
def fetch_deals (memory : List Opportunity) (scraped : List ScrapedDeal) :
    List ScrapedDeal :=
  let urls := memory.map (fun opp => opp.deal.url)
  scraped.filter (fun scrape => !(urls.contains scrape.url))

/-- The try-block of ScannerAgent.scan: call the model on the user prompt,
decode its reply as JSON, validate against the DealSelection schema. The
first `error` in the chain is the exception that the surrounding handler
catches. -/
def scanAttempt (scraped : List ScrapedDeal)
    (callModel : String → Except ScanError String)
    (parseJson : String → Except ScanError (List Deal)) :
    Except ScanError DealSelection :=
  match callModel (make_user_prompt scraped) with
  | .error e => .error e
  | .ok text =>
    match parseJson text with
    | .error e => .error e
    | .ok raw => DealSelection.validate raw

/-- ScannerAgent.scan: fetch new deals (deduplicated against memory); if none
remain, return None without calling the model; otherwise run the try-block,
collapsing any error to None, and post-filter the validated selection to the
deals with price strictly greater than 0. -/
def scan (memory : List Opportunity) (scraped : List ScrapedDeal)
    (callModel : String → Except ScanError String)
    (parseJson : String → Except ScanError (List Deal)) :
    Option DealSelection :=
  let fetched := fetch_deals memory scraped
  if fetched.isEmpty then none
  else
    match scanAttempt fetched callModel parseJson with
    | .error _ => none
    | .ok result => some ⟨result.deals.filter (fun deal => decide (0 < deal.price))⟩

/-! ## Concrete inputs used in the example parts of claims and in witnesses -/

/-- A scraped candidate with the given url. -/
def exScrape (u : String) : ScrapedDeal := ⟨"text " ++ u, u⟩

/-- A memory holding deals with urls urlA and urlB. -/
def exMemory : List Opportunity := [⟨⟨"d", 1, "urlA"⟩⟩, ⟨⟨"d", 1, "urlB"⟩⟩]

/-- Scraped candidates with urls urlA, urlC, urlB, urlD, in that order. -/
def exCandidates : List ScrapedDeal :=
  [exScrape "urlA", exScrape "urlC", exScrape "urlB", exScrape "urlD"]

/-- A model oracle that replies successfully. -/
def modelOk : String → Except ScanError String := fun _ => .ok "reply"

/-- A model oracle whose call raises an exception. -/
def modelErr : String → Except ScanError String := fun _ => .error .modelCallError

/-- A JSON-decode oracle that yields the given raw deals list. -/
def jsonOf (ds : List Deal) : String → Except ScanError (List Deal) :=
  fun _ => .ok ds

/-- A JSON-decode oracle that raises a decode exception. -/
def jsonErr : String → Except ScanError (List Deal) :=
  fun _ => .error .jsonParseError

/-- A deal with the given price. -/
def exDeal (p : ℚ) : Deal := ⟨"desc", p, "url"⟩

/-! ## Shared lemmas -/

/-- The left-to-right scan of `re.search`, with the first alternative
preferred at each position, returns exactly the token at the leftmost
position where the pattern matches. -/
theorem searchNum_eq_firstToken (s : List Char) : searchNum s = firstToken s := by
  induction s with
  | nil => rfl
  | cons c cs ih =>
    have hcase : tokenAt (c :: cs) = (match matchDecAt (c :: cs) with
      | some t => some t
      | none => matchIntAt (c :: cs)) := rfl
    rw [searchNum, firstToken, suffixes, List.find?]
    cases hd : matchDecAt (c :: cs) with
    | some t =>
      have ht : tokenAt (c :: cs) = some t := by rw [hcase, hd]
      simp only [hd, ht, Option.isSome_some, Option.some_bind]
    | none =>
      cases hi : matchIntAt (c :: cs) with
      | some t =>
        have ht : tokenAt (c :: cs) = some t := by rw [hcase, hd, hi]
        simp only [hd, hi, ht, Option.isSome_some, Option.some_bind]
      | none =>
        have ht : tokenAt (c :: cs) = none := by rw [hcase, hd, hi]
        simp only [hd, hi, ht, Option.isSome_none, ih, firstToken]

/-- A selection accepted by the try-block of scan passed schema validation,
so it has at most 5 deals. -/
theorem scanAttempt_ok_length {scraped : List ScrapedDeal}
    {callModel : String → Except ScanError String}
    {parseJson : String → Except ScanError (List Deal)} {result : DealSelection}
    (h : scanAttempt scraped callModel parseJson = .ok result) :
    result.deals.length ≤ 5 := by
  unfold scanAttempt at h
  cases hcm : callModel (make_user_prompt scraped) with
  | error e => simp only [hcm] at h; cases h
  | ok text =>
    simp only [hcm] at h
    cases hpj : parseJson text with
    | error e => simp only [hpj] at h; cases h
    | ok raw =>
      simp only [hpj] at h
      unfold DealSelection.validate at h
      by_cases hlen : raw.length ≤ 5
      · rw [if_pos hlen] at h
        cases h
        exact hlen
      · rw [if_neg hlen] at h
        cases h

/-- A non-None result of scan is the price-filtered form of a selection that
the try-block accepted. -/
theorem scan_some {memory : List Opportunity} {scraped : List ScrapedDeal}
    {callModel : String → Except ScanError String}
    {parseJson : String → Except ScanError (List Deal)} {sel : DealSelection}
    (h : scan memory scraped callModel parseJson = some sel) :
    ∃ result, scanAttempt (fetch_deals memory scraped) callModel parseJson = .ok result ∧
      sel = ⟨result.deals.filter (fun deal => decide (0 < deal.price))⟩ := by
  simp only [scan] at h
  by_cases he : (fetch_deals memory scraped).isEmpty
  · rw [if_pos he] at h; cases h
  · rw [if_neg he] at h
    cases ha : scanAttempt (fetch_deals memory scraped) callModel parseJson with
    | error e =>
      simp only [ha] at h
      exact Option.noConfusion h
    | ok result =>
      simp only [ha] at h
      exact ⟨result, rfl, (Option.some.inj h).symm⟩

/-! ## Claim theorems -/

/-- Claim C1: every DealSelection returned by a curation pass
(ScannerAgent.scan) contains at most 5 CuratedDeal entries, for every memory,
every set of scraped candidates and every model reply or failure behaviour. -/
theorem scan_selection_at_most_five
    (memory : List Opportunity) (scraped : List ScrapedDeal)
    (callModel : String → Except ScanError String)
    (parseJson : String → Except ScanError (List Deal))
    (sel : DealSelection)
    (h : scan memory scraped callModel parseJson = some sel) :
    sel.deals.length ≤ 5 := by
  obtain ⟨result, hok, hsel⟩ := scan_some h
  subst hsel
  exact le_trans (List.length_filter_le _ _) (scanAttempt_ok_length hok)

/-- Witness for C1: a concrete successful curation pass, with its at-most-5
bound discharged by the theorem. -/
theorem scan_selection_at_most_five_witness :
    (⟨[exDeal 10]⟩ : DealSelection).deals.length ≤ 5 :=
  scan_selection_at_most_five [] [exScrape "urlC"] modelOk (jsonOf [exDeal 10])
    ⟨[exDeal 10]⟩ (by decide)

/-- Claim C2: the post-filter step of curation keeps exactly the parsed
entries whose price is strictly greater than 0, in their original order;
hence every deal in a non-None result of ScannerAgent.scan has price > 0, and
a parsed selection with prices 10, 0, -5, 20, 30 yields exactly the 3
strictly positive entries in order. -/
theorem scan_keeps_exactly_positive_prices :
    (∀ (memory : List Opportunity) (scraped : List ScrapedDeal)
        (callModel : String → Except ScanError String)
        (parseJson : String → Except ScanError (List Deal)) (text : String)
        (raw : List Deal),
        callModel (make_user_prompt (fetch_deals memory scraped)) = .ok text →
        parseJson text = .ok raw → raw.length ≤ 5 →
        fetch_deals memory scraped ≠ [] →
        scan memory scraped callModel parseJson
          = some ⟨raw.filter (fun deal => decide (0 < deal.price))⟩) ∧
    (∀ (memory : List Opportunity) (scraped : List ScrapedDeal)
        (callModel : String → Except ScanError String)
        (parseJson : String → Except ScanError (List Deal)) (sel : DealSelection),
        scan memory scraped callModel parseJson = some sel →
        ∀ deal ∈ sel.deals, 0 < deal.price) ∧
    scan [] [exScrape "urlC"] modelOk
        (jsonOf [exDeal 10, exDeal 0, exDeal (-5), exDeal 20, exDeal 30])
      = some ⟨[exDeal 10, exDeal 20, exDeal 30]⟩ := by
  refine ⟨?_, ?_, by decide⟩
  · intro memory scraped callModel parseJson text raw hcm hpj hlen hne
    simp only [scan]
    rw [if_neg (by rw [List.isEmpty_iff]; exact hne)]
    have ha : scanAttempt (fetch_deals memory scraped) callModel parseJson = .ok ⟨raw⟩ := by
      simp only [scanAttempt, hcm, hpj, DealSelection.validate]
      rw [if_pos hlen]
    simp only [ha]
  · intro memory scraped callModel parseJson sel h deal hdeal
    obtain ⟨result, hok, hsel⟩ := scan_some h
    subst hsel
    simp only [List.mem_filter] at hdeal
    exact of_decide_eq_true hdeal.2

/-- Witness for C2: a concrete successful curation pass whose result the
theorem determines as the price filter of the parsed entries. -/
theorem scan_keeps_exactly_positive_prices_witness :
    scan [] [exScrape "urlC"] modelOk (jsonOf [exDeal 1])
      = some ⟨[exDeal 1].filter (fun deal => decide (0 < deal.price))⟩ :=
  scan_keeps_exactly_positive_prices.1 [] [exScrape "urlC"] modelOk (jsonOf [exDeal 1])
    "reply" [exDeal 1] rfl rfl (by decide) (by decide)

/-- Claim C3 counterexample: the extractor does not honor the sign of an
integer token. On the reply text containing -42 the sign is dropped: the code
returns 42.0, not -42.0 (the regex allows a sign only on its decimal
alternative, and the leftmost match in the stripped text is the unsigned
integer 42). -/
theorem get_price_drops_integer_sign :
    get_price "-42" = 42 ∧ get_price "-42" ≠ -42 := by
  have h : searchNum (stripCurrency ("-42").data) = some ⟨false, 42, 0, 0⟩ := by decide
  rw [get_price, h]
  constructor
  · norm_num [NumToken.val]
  · norm_num [NumToken.val]

/-- Claim C3 (amended): for every reply text, get_price strips currency
symbols and thousands separators, then returns as a float the first
(leftmost) token matching the signed-or-unsigned decimal or unsigned integer
pattern — the sign is honored for decimal tokens only — or 0.0 if no such
token exists. -/
theorem get_price_first_token (text : String) :
    get_price text = ((firstToken (stripCurrency text.data)).map NumToken.val).getD 0 := by
  rw [get_price, ← searchNum_eq_firstToken]
  cases searchNum (stripCurrency text.data) <;> rfl

/-- Claim C4: numeric extraction on the four reference inputs returns the
specified values: 1234.56, 42.0, 0.0 and -3.5 respectively. -/
theorem get_price_reference_values :
    get_price "$1,234.56" = 1234.56 ∧ get_price "about 42 dollars" = 42 ∧
    get_price "no price mentioned" = 0 ∧ get_price "-3.5% off" = -3.5 := by
  have h1 : searchNum (stripCurrency ("$1,234.56").data) = some ⟨false, 1234, 56, 2⟩ := by
    decide
  have h2 : searchNum (stripCurrency ("about 42 dollars").data) = some ⟨false, 42, 0, 0⟩ := by
    decide
  have h3 : searchNum (stripCurrency ("no price mentioned").data) = none := by decide
  have h4 : searchNum (stripCurrency ("-3.5% off").data) = some ⟨true, 3, 5, 1⟩ := by decide
  refine ⟨?_, ?_, ?_, ?_⟩
  · rw [get_price, h1]; norm_num [NumToken.val]
  · rw [get_price, h2]; norm_num [NumToken.val]
  · rw [get_price, h3]
  · rw [get_price, h4]; norm_num [NumToken.val]

/-- Claim C5 counterexample: a price-estimation pass is not always
non-negative. When the model reply is -3.5, the returned estimate is the
negative number -3.5. -/
theorem price_can_be_negative :
    price "-3.5" = -3.5 ∧ price "-3.5" < 0 := by
  have h : searchNum (stripCurrency (pyStrip "-3.5").data) = some ⟨true, 3, 5, 1⟩ := by decide
  rw [price, get_price, h]
  constructor
  · norm_num [NumToken.val]
  · norm_num [NumToken.val]

/-- Claim C5 (amended): for every model reply, the result of one
price-estimation pass is the value of the first numeric token extracted from
the stripped reply, defaulting to 0.0 when no numeric token can be parsed;
it is a real number but not guaranteed non-negative. -/
theorem price_is_extracted_token_or_zero :
    (∀ modelReply, price modelReply
        = ((firstToken (stripCurrency (pyStrip modelReply).data)).map NumToken.val).getD 0) ∧
    (∃ modelReply, price modelReply < 0) := by
  constructor
  · intro modelReply
    rw [price, get_price, ← searchNum_eq_firstToken]
    cases searchNum (stripCurrency (pyStrip modelReply).data) <;> rfl
  · refine ⟨"-3.5", ?_⟩
    have h : searchNum (stripCurrency (pyStrip "-3.5").data) = some ⟨true, 3, 5, 1⟩ := by
      decide
    rw [price, get_price, h]
    norm_num [NumToken.val]

/-- Claim C6: the deduplicator (ScannerAgent.fetch_deals) returns exactly
those candidates whose url is not among the urls of the memory entries,
preserving original relative order; with known urls urlA, urlB and candidate
urls urlA, urlC, urlB, urlD it returns the candidates with urls urlC, urlD in
that order. -/
theorem fetch_deals_filters_known_urls :
    (∀ (memory : List Opportunity) (scraped : List ScrapedDeal),
        fetch_deals memory scraped
          = scraped.filter (fun s => decide (s.url ∉ memory.map (fun opp => opp.deal.url)))) ∧
    (fetch_deals exMemory exCandidates).map (fun s => s.url) = ["urlC", "urlD"] := by
  constructor
  · intro memory scraped
    simp only [fetch_deals]
    congr 1
    funext s
    simp only [List.contains, List.elem_eq_mem, decide_not]
  · decide

/-- Claim C7: every model-call error, JSON parse error, or schema-validation
error arising after candidates are fetched is caught by the try-block of
ScannerAgent.scan and causes the method to return None rather than propagate,
for every input and every failing backend behaviour. -/
theorem scan_collapses_errors_to_none
    (memory : List Opportunity) (scraped : List ScrapedDeal)
    (callModel : String → Except ScanError String)
    (parseJson : String → Except ScanError (List Deal)) :
    (∀ e, scanAttempt (fetch_deals memory scraped) callModel parseJson = .error e →
        scan memory scraped callModel parseJson = none) ∧
    (∀ e, callModel (make_user_prompt (fetch_deals memory scraped)) = .error e →
        scanAttempt (fetch_deals memory scraped) callModel parseJson = .error e) ∧
    (∀ text e, callModel (make_user_prompt (fetch_deals memory scraped)) = .ok text →
        parseJson text = .error e →
        scanAttempt (fetch_deals memory scraped) callModel parseJson = .error e) ∧
    (∀ text raw, callModel (make_user_prompt (fetch_deals memory scraped)) = .ok text →
        parseJson text = .ok raw → 5 < raw.length →
        scanAttempt (fetch_deals memory scraped) callModel parseJson
          = .error .validationError) := by
  refine ⟨?_, ?_, ?_, ?_⟩
  · intro e he
    simp only [scan]
    by_cases hemp : (fetch_deals memory scraped).isEmpty
    · rw [if_pos hemp]
    · rw [if_neg hemp]
      simp only [he]
  · intro e he
    unfold scanAttempt
    rw [he]
  · intro text e hcm hpj
    simp only [scanAttempt, hcm, hpj]
  · intro text raw hcm hpj hlen
    simp only [scanAttempt, hcm, hpj, DealSelection.validate]
    rw [if_neg (by omega)]

/-- Witness for C7: a concrete model-call failure on a non-empty candidate
list, collapsed to None by the theorem. -/
theorem scan_collapses_errors_to_none_witness :
    scan [] [exScrape "urlC"] modelErr jsonErr = none :=
  (scan_collapses_errors_to_none [] [exScrape "urlC"] modelErr jsonErr).1
    .modelCallError rfl

/-- Claim C8: if the deduplicated candidate list is empty, ScannerAgent.scan
returns None immediately; the result is None for every model oracle, so no
generative-model call can influence it (none is issued). -/
theorem scan_empty_candidates_no_model_call
    (memory : List Opportunity) (scraped : List ScrapedDeal)
    (callModel callModel2 : String → Except ScanError String)
    (parseJson parseJson2 : String → Except ScanError (List Deal))
    (h : fetch_deals memory scraped = []) :
    scan memory scraped callModel parseJson = none ∧
    scan memory scraped callModel parseJson = scan memory scraped callModel2 parseJson2 := by
  have he : (fetch_deals memory scraped).isEmpty = true := by
    rw [List.isEmpty_iff]; exact h
  constructor
  · simp only [scan]; rw [if_pos he]
  · simp only [scan]; rw [if_pos he, if_pos he]

/-- Witness for C8: a memory covering the only candidate url leaves no new
candidates, and the theorem yields the immediate None. -/
theorem scan_empty_candidates_no_model_call_witness :
    scan exMemory [exScrape "urlA"] modelOk (jsonOf [exDeal 1]) = none :=
  (scan_empty_candidates_no_model_call exMemory [exScrape "urlA"]
    modelOk modelErr (jsonOf [exDeal 1]) jsonErr (by decide)).1

/-- Claim C9: for every retrieved neighbor metadata map, the extracted
neighbor price equals the value of the primary field price when present,
otherwise the value of the fallback field selling_price when present,
otherwise 0.0; find_similars extracts one such price per neighbor. -/
theorem neighbor_price_two_key_fallback :
    (∀ m : List (String × ℚ),
        (∀ v, m.lookup "price" = some v → neighborPrice m = v) ∧
        (m.lookup "price" = none → ∀ v, m.lookup "selling_price" = some v →
            neighborPrice m = v) ∧
        (m.lookup "price" = none → m.lookup "selling_price" = none →
            neighborPrice m = 0)) ∧
    (∀ (documents : List String) (metadatas : List (List (String × ℚ))),
        (find_similars documents metadatas).2 = metadatas.map neighborPrice) := by
  constructor
  · intro m
    refine ⟨?_, ?_, ?_⟩
    · intro v hv
      rw [neighborPrice, dictGet, hv]
    · intro hp v hv
      rw [neighborPrice, dictGet, hp, dictGet, hv]
    · intro hp hs
      rw [neighborPrice, dictGet, hp, dictGet, hs]
  · intro documents metadatas
    rfl

/-- Witness for C9: a metadata map carrying only the fallback field, whose
extracted price the theorem determines. -/
theorem neighbor_price_two_key_fallback_witness :
    neighborPrice [("selling_price", 7)] = 7 :=
  (neighbor_price_two_key_fallback.1 [("selling_price", 7)]).2.1 (by decide) 7 (by decide)

/-- Claim C10: ScannerAgent.scan can return a non-None DealSelection whose
deals list is empty: when the model reply parses and validates but every
parsed deal has price at most 0, the result is a DealSelection with zero
entries — distinct from the None returned when there are no new candidates or
when an error occurs. -/
theorem scan_can_return_empty_selection :
    scan [] [exScrape "urlC"] modelOk (jsonOf [exDeal 0, exDeal (-5)]) = some ⟨[]⟩ ∧
    scan [] [exScrape "urlC"] modelOk (jsonOf [exDeal 0, exDeal (-5)]) ≠ none ∧
    scan [⟨⟨"d", 1, "urlC"⟩⟩] [exScrape "urlC"] modelOk (jsonOf [exDeal 0, exDeal (-5)])
      = none ∧
    scan [] [exScrape "urlC"] modelErr (jsonOf [exDeal 0, exDeal (-5)]) = none := by
  refine ⟨by decide, by decide, by decide, by decide⟩

end DealPriceAnalyser
